import Mathlib

/-!
Shallow embedding of the WarpX field–particle coupling core, covering:
 - the lattice-element field gather (`LatticeElementFinderDevice::operator()`
   in `Source/AcceleratorLattice/LatticeElementFinder.H`),
 - the setup parameter checks and the top-level constructor
   (`WarpX::ReadParameters`, `WarpX::WarpX` in `Source/WarpX.cpp`),
 - the Yee staggering nodal flags (`WarpX.cpp` file-scope definitions),
 - the refinement buffer masks (modelled from the documentation, the
   implementation is not part of the analysed sources),
 - `FiniteDifferenceSolver::CalculateCurrentAmpere` (modelled from its
   declared contract, the implementation is not part of the analysed sources).

Machine reals are modelled by `ℝ`; C++ `int` and `long` by `ℤ`.
-/

/-- Speed of light, `PhysConst::c` (SI). -/
def cLight : ℝ := 299792458

/-- `inv_c2 = 1/(c*c)` as computed in the gather kernel. -/
noncomputable def inv_c2 : ℝ := 1 / (cLight * cLight)

/-- Vacuum permeability `PhysConst::mu0` (SI). -/
noncomputable def mu0 : ℝ := 4 * Real.pi * (1 / 10 ^ 7)

/-- C++ `static_cast<int>` applied to a real value: truncation toward zero. -/
noncomputable def truncToInt (r : ℝ) : ℤ :=
  if 0 ≤ r then ⌊r⌋ else ⌈r⌉

/-- The four transverse field components handled by a hard-edged lattice
element (`Ex, Ey, Bx, By` as returned by `get_field`). -/
structure TransverseField where
  Ex : ℝ
  Ey : ℝ
  Bx : ℝ
  By : ℝ


/-- Componentwise sum of transverse fields (the `+=` accumulation). -/
def TransverseField.add (a b : TransverseField) : TransverseField :=
  ⟨a.Ex + b.Ex, a.Ey + b.Ey, a.Bx + b.Bx, a.By + b.By⟩

/-- The all-zero transverse field. -/
def TransverseField.zero : TransverseField := ⟨0, 0, 0, 0⟩

/-- The six gathered field components `field_Ex .. field_Bz`. -/
structure EMField where
  Ex : ℝ
  Ey : ℝ
  Ez : ℝ
  Bx : ℝ
  By : ℝ
  Bz : ℝ


/-- Componentwise sum of six-component fields. -/
def EMField.addF (a b : EMField) : EMField :=
  ⟨a.Ex + b.Ex, a.Ey + b.Ey, a.Ez + b.Ez, a.Bx + b.Bx, a.By + b.By, a.Bz + b.Bz⟩

/-- The all-zero six-component field. -/
def EMField.zero : EMField := ⟨0, 0, 0, 0, 0, 0⟩

/-- Relativistic gamma from momentum-per-mass, as computed in the gather:
`gamma = sqrt(1 + (ux*ux + uy*uy + uz*uz) * inv_c2)`. -/
noncomputable def gammaOf (ux uy uz : ℝ) : ℝ :=
  Real.sqrt (1 + (ux * ux + uy * uy + uz * uz) * inv_c2)

/-- Axial velocity used to extrapolate the particle position:
`vzp = m_uz[i]/gamma`. -/
noncomputable def vzpOf (ux uy uz : ℝ) : ℝ :=
  uz / gammaOf ux uy uz

/-- Lab-to-boosted-frame transform of the transverse field components, as
written in the gather kernel (lines 209–212 of `LatticeElementFinder.H`);
the second argument is `m_uz_boost`, the boost momentum-per-mass `γ·β·c`. -/
noncomputable def boostTransform (gb uzb : ℝ) (f : TransverseField) : TransverseField :=
  ⟨gb * f.Ex - uzb * f.By,
   gb * f.Ey + uzb * f.Bx,
   gb * f.Bx + uzb * f.Ey * inv_c2,
   gb * f.By - uzb * f.Ex * inv_c2⟩

/-- The inverse (boosted-to-lab) transform: the same formulas with the boost
momentum negated. -/
noncomputable def boostTransformInv (gb uzb : ℝ) (f : TransverseField) : TransverseField :=
  boostTransform gb (-uzb) f

/-- Device-side data of one hard-edged element type
(`HardEdgedQuadrupoleDevice` / `HardEdgedPlasmaLensDevice`): the element
count and the `get_field(ielement, x, y, z, zpvdt, Ex, Ey, Bx, By)` field
evaluation, abstracted as a function since the element headers are external. -/
structure ElementDevice where
  nelements : ℤ
  get_field : ℤ → ℝ → ℝ → ℝ → ℝ → TransverseField

/-- Mirror of `LatticeElementFinderDevice`: grid data, boost parameters,
particle accessors and per-type element data with their index lookup tables
(arrays modelled as functions of the index). -/
structure LatticeElementFinderDevice where
  m_zmin : ℝ
  m_dz : ℝ
  m_dt : ℝ
  m_gamma_boost : ℝ
  m_uz_boost : ℝ
  m_time : ℝ
  m_get_position : ℤ → ℝ × ℝ × ℝ
  m_ux : ℤ → ℝ
  m_uy : ℤ → ℝ
  m_uz : ℤ → ℝ
  d_quad : ElementDevice
  d_plasmalens : ElementDevice
  d_quad_indices_arr : ℤ → ℤ
  d_plasmalens_indices_arr : ℤ → ℤ

/-- Contribution of one element type to the gathered sums: the nested guard
from the kernel — the index table is consulted only when `nelements > 0`,
and `get_field` is evaluated only when the table entry is `> -1`. -/
def elementContrib (ne : ℤ) (indices : ℤ → ℤ)
    (gf : ℤ → ℝ → ℝ → ℝ → ℝ → TransverseField)
    (iz : ℤ) (x y z zpvdt : ℝ) : TransverseField :=
  if 0 < ne then
    (if -1 < indices iz then gf (indices iz) x y z zpvdt
     else TransverseField.zero)
  else TransverseField.zero

/-- The lab-frame field sums `Ex_sum, Ey_sum, Bx_sum, By_sum` accumulated by
the gather kernel before the boost branch: particle position, its cell `iz`,
the extrapolated position `zpvdt`, the Lorentz boost of the positions into
the lab frame when `m_gamma_boost > 1`, and the guarded per-type element
contributions. -/
noncomputable def labFieldSums (f : LatticeElementFinderDevice) (i : ℤ) : TransverseField :=
  let p := f.m_get_position i
  let x := p.1
  let y := p.2.1
  let z0 := p.2.2
  let iz := truncToInt ((z0 - f.m_zmin) / f.m_dz)
  let vzp := vzpOf (f.m_ux i) (f.m_uy i) (f.m_uz i)
  let zpvdt0 := z0 + vzp * f.m_dt
  let z := if 1 < f.m_gamma_boost then f.m_gamma_boost * z0 + f.m_uz_boost * f.m_time else z0
  let zpvdt := if 1 < f.m_gamma_boost
               then f.m_gamma_boost * zpvdt0 + f.m_uz_boost * (f.m_time + f.m_dt)
               else zpvdt0
  TransverseField.add
    (elementContrib f.d_quad.nelements f.d_quad_indices_arr f.d_quad.get_field iz x y z zpvdt)
    (elementContrib f.d_plasmalens.nelements f.d_plasmalens_indices_arr
      f.d_plasmalens.get_field iz x y z zpvdt)

/-- `LatticeElementFinderDevice::operator()`: accumulate the lab-frame sums,
transform them into the boosted frame when `m_gamma_boost > 1`, and add them
to the gathered fields; the z sums are the constants `Ez_sum = Bz_sum = 0`. -/
noncomputable def gatherOperator (f : LatticeElementFinderDevice) (i : ℤ)
    (fld : EMField) : EMField :=
  let s := labFieldSums f i
  let s2 := if 1 < f.m_gamma_boost then boostTransform f.m_gamma_boost f.m_uz_boost s else s
  { Ex := fld.Ex + s2.Ex
    Ey := fld.Ey + s2.Ey
    Ez := fld.Ez + 0
    Bx := fld.Bx + s2.Bx
    By := fld.By + s2.By
    Bz := fld.Bz + 0 }

/-- The result the boosted branch is claimed to produce: the lab-frame sums
pushed through `E'x = γ·Ex − v·By`, `E'y = γ·Ey + v·Bx`,
`B'x = γ·Bx + v·Ey/c²`, `B'y = γ·By − v·Ex/c²` (`v` being the boost
momentum-per-mass `m_uz_boost`), z-components unchanged, added to the
incoming gathered fields. -/
noncomputable def boostedGatherResult (f : LatticeElementFinderDevice) (i : ℤ)
    (fld : EMField) : EMField :=
  let s := labFieldSums f i
  { Ex := fld.Ex + (f.m_gamma_boost * s.Ex - f.m_uz_boost * s.By)
    Ey := fld.Ey + (f.m_gamma_boost * s.Ey + f.m_uz_boost * s.Bx)
    Ez := fld.Ez
    Bx := fld.Bx + (f.m_gamma_boost * s.Bx + f.m_uz_boost * s.Ey * inv_c2)
    By := fld.By + (f.m_gamma_boost * s.By - f.m_uz_boost * s.Ex * inv_c2)
    Bz := fld.Bz }

/-- The `interpolation` block of `WarpX::ReadParameters`: abort when the
per-axis orders differ, then abort when the order is below one
(`WarpX.cpp` lines 195–206); `amrex::Abort` is modelled as `Except.error`. -/
def interpolationCheck (nox noy noz : ℤ) : Except String Unit :=
  if nox ≠ noy ∨ nox ≠ noz then
    Except.error "warpx.nox, noy and noz must be equal"
  else if nox < 1 then
    Except.error "warpx.nox must >= 1"
  else Except.ok ()

/-- The `moving_window_dir` validation in `WarpX::ReadParameters`: the string
must name a dimension present in the build, else `amrex::Abort`. -/
def movingWindowDirCheck (spacedim : ℤ) (s : String) : Except String Unit :=
  if s = "x" ∨ s = "X" then Except.ok ()
  else if spacedim = 3 ∧ (s = "y" ∨ s = "Y") then Except.ok ()
  else if s = "z" ∨ s = "Z" then Except.ok ()
  else Except.error ("Unknown moving_window_dir: " ++ s)

/-- The configuration inputs consulted by the abort checks of
`WarpX::ReadParameters` and `WarpX::WarpX`. -/
structure WarpXParams where
  max_level : ℤ
  spacedim : ℤ
  do_moving_window : Bool
  moving_window_dir : String
  nox : ℤ
  noy : ℤ
  noz : ℤ

/-- `WarpX::ReadParameters`, restricted to its abort-relevant checks in
source order: the moving-window direction check (only when
`do_moving_window` is set) followed by the interpolation-order checks;
an abort propagates. -/
def readParameters (p : WarpXParams) : Except String Unit :=
  match (if p.do_moving_window
         then movingWindowDirCheck p.spacedim p.moving_window_dir
         else Except.ok ()) with
  | Except.error e => Except.error e
  | Except.ok _ => interpolationCheck p.nox p.noy p.noz

/-- `WarpX::WarpX` (the constructor, `WarpX.cpp` lines 78–111): call
`ReadParameters`, then abort when `max_level != 0`; the remaining body only
allocates state and cannot abort. -/
def warpxCtor (p : WarpXParams) : Except String Unit :=
  match readParameters p with
  | Except.error e => Except.error e
  | Except.ok _ =>
    if p.max_level ≠ 0 then Except.error "WarpX: max_level must be zero"
    else Except.ok ()

/-- The six field components whose staggering flags are defined at file scope
in `WarpX.cpp`. -/
inductive FieldComp
  | Ex | Ey | Ez | Bx | By | Bz
  deriving DecidableEq, Fintype

/-- The 3D (`BL_SPACEDIM == 3`) nodal flags of `WarpX.cpp` lines 30–48. -/
def nodal_flag_3d : FieldComp → List ℤ
  | FieldComp.Bx => [1, 0, 0]
  | FieldComp.By => [0, 1, 0]
  | FieldComp.Bz => [0, 0, 1]
  | FieldComp.Ex => [0, 1, 1]
  | FieldComp.Ey => [1, 0, 1]
  | FieldComp.Ez => [1, 1, 0]

/-- The 2D (`BL_SPACEDIM == 2`) nodal flags of `WarpX.cpp` lines 30–48
(x is the first dimension, y the missing one, z the second). -/
def nodal_flag_2d : FieldComp → List ℤ
  | FieldComp.Bx => [1, 0]
  | FieldComp.By => [0, 0]
  | FieldComp.Bz => [0, 1]
  | FieldComp.Ex => [0, 1]
  | FieldComp.Ey => [1, 1]
  | FieldComp.Ez => [1, 0]

/-- A mesh cell index. -/
abbrev Cell : Type := ℤ × ℤ × ℤ

/-- Distance in cells between two cell indices (Chebyshev metric). -/
def cellDist (a b : Cell) : ℤ :=
  max |a.1 - b.1| (max |a.2.1 - b.2.1| |a.2.2 - b.2.2|)

/-- Minimum of a list of integers (`0` on the empty list, which is never
consulted: masks are built against a nonempty interface). -/
def listMin : List ℤ → ℤ
  | [] => 0
  | [a] => a
  | a :: b :: rest => min a (listMin (b :: rest))

/-- Distance in cells from a cell to the nearest coarse-fine interface cell. -/
def nearestInterfaceDist (ifs : List Cell) (c : Cell) : ℤ :=
  listMin (ifs.map fun b => cellDist c b)

/-- Modelled from the spec: the buffer-mask construction
(`WarpX::gather_buffer_masks` / `WarpX::current_buffer_masks`, whose
implementation is outside the analysed sources). A cell is flagged in the
gather mask when it is fewer than `ng` (`WarpX::n_field_gather_buffer`)
cells away from the coarse-patch boundary, and in the deposit mask when it
is fewer than `nd` (`WarpX::n_current_deposition_buffer`) cells away. -/
def buildBuffers (ifs : List Cell) (ng nd : ℤ) : (Cell → Bool) × (Cell → Bool) :=
  (fun c => ifs.any fun b => decide (cellDist c b < ng),
   fun c => ifs.any fun b => decide (cellDist c b < nd))

/-- A staggered vector field on the 3D mesh, one scalar per component. -/
structure VecField3 where
  x : ℤ → ℤ → ℤ → ℝ
  y : ℤ → ℤ → ℤ → ℝ
  z : ℤ → ℤ → ℤ → ℝ

/-- The staggered finite-difference curl (downward differences, as used by
the hybrid solver kernels on the Yee layout). -/
noncomputable def curlB (B : VecField3) (dx dy dz : ℝ) : VecField3 :=
  { x := fun i j k => (B.z i j k - B.z i (j - 1) k) / dy - (B.y i j k - B.y i j (k - 1)) / dz
    y := fun i j k => (B.x i j k - B.x i j (k - 1)) / dz - (B.z i j k - B.z (i - 1) j k) / dx
    z := fun i j k => (B.y i j k - B.y (i - 1) j k) / dx - (B.x i j k - B.x i (j - 1) k) / dy }

/-- Modelled from the spec: `FiniteDifferenceSolver::CalculateCurrentAmpere`
(implementation outside the analysed sources; its declared contract in
`FiniteDifferenceSolver.H` is "Calculation of total current using Ampere's
law (without displacement current): J = (curl x B) / mu0"). Each component
is the finite-difference curl expression divided by `mu0`. -/
noncomputable def CalculateCurrentAmpere (B : VecField3) (dx dy dz : ℝ) : VecField3 :=
  { x := fun i j k =>
      ((B.z i j k - B.z i (j - 1) k) / dy - (B.y i j k - B.y i j (k - 1)) / dz) / mu0
    y := fun i j k =>
      ((B.x i j k - B.x i j (k - 1)) / dz - (B.z i j k - B.z (i - 1) j k) / dx) / mu0
    z := fun i j k =>
      ((B.y i j k - B.y (i - 1) j k) / dx - (B.x i j k - B.x i (j - 1) k) / dy) / mu0 }

/-- A concrete finder instance used to exercise the gather theorems: one
quadrupole element everywhere, no plasma-lens elements, boost `γ = 2`. -/
noncomputable def exFinder : LatticeElementFinderDevice :=
  { m_zmin := 0
    m_dz := 1
    m_dt := 1
    m_gamma_boost := 2
    m_uz_boost := cLight
    m_time := 0
    m_get_position := fun _ => (0, 0, 0)
    m_ux := fun _ => 0
    m_uy := fun _ => 0
    m_uz := fun _ => 0
    d_quad := ⟨1, fun _ _ _ _ _ => ⟨1, 2, 3, 4⟩⟩
    d_plasmalens := ⟨0, fun _ _ _ _ _ => TransverseField.zero⟩
    d_quad_indices_arr := fun _ => 0
    d_plasmalens_indices_arr := fun _ => -1 }

/-- A concrete configuration with a nonzero `max_level` and otherwise valid
inputs. -/
def exParams : WarpXParams :=
  { max_level := 1
    spacedim := 3
    do_moving_window := false
    moving_window_dir := ""
    nox := 1
    noy := 1
    noz := 1 }

/-- The minimum of a nonempty integer list is below `t` iff some member is. -/
theorem listMin_lt_iff (t : ℤ) : ∀ l : List ℤ, l ≠ [] → (listMin l < t ↔ ∃ a ∈ l, a < t) := by
  intro l
  induction l with
  | nil => intro h; exact absurd rfl h
  | cons a rest ih =>
    intro _
    cases rest with
    | nil => simp [listMin]
    | cons b rest2 =>
      have h2 := ih (by simp)
      show min a (listMin (b :: rest2)) < t ↔ _
      rw [min_lt_iff, h2]
      simp [List.mem_cons, exists_eq_or_imp]

/-- C4: during setup parameter reading, the interpolation-order block fails
fatally exactly when the per-axis orders `nox, noy, noz` are not all equal
or the order is below one; no inconsistent or non-positive stencil order is
accepted. -/
theorem interpolation_orders_validated (nox noy noz : ℤ) :
    (∃ msg, interpolationCheck nox noy noz = Except.error msg) ↔
      (¬(nox = noy ∧ noy = noz) ∨ nox < 1) := by
  unfold interpolationCheck
  split_ifs with h1 h2
  · constructor
    · intro _
      omega
    · intro _
      exact ⟨_, rfl⟩
  · constructor
    · intro _
      omega
    · intro _
      exact ⟨_, rfl⟩
  · constructor
    · rintro ⟨m, hm⟩
      exact hm.elim
    · intro hr
      push_neg at h1
      omega

/-- C3: the top-level constructor `WarpX::WarpX` aborts fatally, during
construction and hence before any stepping, whenever the configured
`max_level` is nonzero: only one refinement level is accepted. -/
theorem ctor_aborts_on_refinement (p : WarpXParams) (h : p.max_level ≠ 0) :
    ∃ msg, warpxCtor p = Except.error msg := by
  unfold warpxCtor
  cases hr : readParameters p with
  | error e => exact ⟨e, rfl⟩
  | ok u => exact ⟨"WarpX: max_level must be zero", by rw [if_pos h]⟩

/-- Witness for C3 at a concrete configuration with `max_level = 1`. -/
theorem ctor_aborts_on_refinement_witness :
    exParams.max_level ≠ 0 ∧ ∃ msg, warpxCtor exParams = Except.error msg :=
  ⟨by decide, ctor_aborts_on_refinement exParams (by decide)⟩

/-- C5 counterexample: in the 2D build the sub-cell offset of `Ex` equals
the offset of `Bz`, although the components are distinct — the staggering
offsets are not pairwise distinct in every supported dimensionality. -/
theorem staggering_2d_coincidence :
    FieldComp.Ex ≠ FieldComp.Bz ∧
      nodal_flag_2d FieldComp.Ex = nodal_flag_2d FieldComp.Bz := by
  decide

/-- C5 (amended): in 3D all six field components carry pairwise distinct
staggering offsets; in 2D two components coincide in offset exactly when
they are `Ex`/`Bz` or `Ez`/`Bx` (the y dimension being absent), all other
pairs being distinct. -/
theorem staggering_offsets_distinct :
    (∀ a b : FieldComp, a = b ∨ nodal_flag_3d a ≠ nodal_flag_3d b) ∧
    (∀ a b : FieldComp,
      nodal_flag_2d a = nodal_flag_2d b ↔
        (a = b ∨ (a = FieldComp.Ex ∧ b = FieldComp.Bz) ∨
         (a = FieldComp.Bz ∧ b = FieldComp.Ex) ∨
         (a = FieldComp.Ez ∧ b = FieldComp.Bx) ∨
         (a = FieldComp.Bx ∧ b = FieldComp.Ez))) := by
  decide

/-- C8: `CalculateCurrentAmpere` sets each component of the output current
equal to the corresponding component of the finite-difference curl of the
input magnetic field divided by `mu0` (Ampere's law without displacement
current). -/
theorem calculateCurrentAmpere_is_curl_over_mu0 (B : VecField3) (dx dy dz : ℝ)
    (i j k : ℤ) :
    (CalculateCurrentAmpere B dx dy dz).x i j k = (curlB B dx dy dz).x i j k / mu0 ∧
    (CalculateCurrentAmpere B dx dy dz).y i j k = (curlB B dx dy dz).y i j k / mu0 ∧
    (CalculateCurrentAmpere B dx dy dz).z i j k = (curlB B dx dy dz).z i j k / mu0 :=
  ⟨rfl, rfl, rfl⟩

/-- C1: whenever `m_gamma_boost > 1`, the gather transforms the lab-frame
field sums returned by the element lookup into the boosted frame with
exactly `E'x = γ·Ex − v·By`, `E'y = γ·Ey + v·Bx`, `B'x = γ·Bx + v·Ey/c²`,
`B'y = γ·By − v·Ex/c²` (`γ` being `m_gamma_boost` and `v` the boost
momentum-per-mass `m_uz_boost`), leaving the z-components of the gathered
fields unchanged. -/
theorem gather_boost_transform (f : LatticeElementFinderDevice) (i : ℤ)
    (fld : EMField) (h : 1 < f.m_gamma_boost) :
    gatherOperator f i fld = boostedGatherResult f i fld := by
  unfold gatherOperator boostedGatherResult boostTransform
  simp [h]

/-- Witness for C1 at a concrete boosted finder (`γ = 2`). -/
theorem gather_boost_transform_witness :
    1 < exFinder.m_gamma_boost ∧
      gatherOperator exFinder 0 EMField.zero = boostedGatherResult exFinder 0 EMField.zero :=
  ⟨by norm_num [exFinder], gather_boost_transform exFinder 0 EMField.zero (by norm_num [exFinder])⟩

/-- C9: the gather only increments the given field components — the result
is the incoming fields plus a contribution independent of them — and the
contribution to the z-components is exactly zero, so a zero lattice
contribution leaves all six gathered values unchanged. -/
theorem gather_increments_fields (f : LatticeElementFinderDevice) (i : ℤ)
    (fld : EMField) :
    gatherOperator f i fld = EMField.addF fld (gatherOperator f i EMField.zero) ∧
    (gatherOperator f i EMField.zero).Ez = 0 ∧
    (gatherOperator f i EMField.zero).Bz = 0 := by
  unfold gatherOperator EMField.addF EMField.zero
  simp

/-- C10: one element type's contribution to the gather: under the nested
guard, when the type has no elements or the index table at the particle's
z-cell holds no element (entry not `> -1`), the contribution is exactly
zero, no `get_field` evaluation occurs (the result is independent of the
`get_field` function), and when the element count is non-positive the index
table itself is never consulted (the result is independent of the table). -/
theorem element_lookup_guarded (ne : ℤ) (indices : ℤ → ℤ)
    (gf : ℤ → ℝ → ℝ → ℝ → ℝ → TransverseField) (iz : ℤ) (x y z w : ℝ)
    (h : ne ≤ 0 ∨ indices iz ≤ -1) :
    elementContrib ne indices gf iz x y z w = TransverseField.zero ∧
    (∀ gf2, elementContrib ne indices gf2 iz x y z w =
      elementContrib ne indices gf iz x y z w) ∧
    (ne ≤ 0 → ∀ ind2, elementContrib ne ind2 gf iz x y z w =
      elementContrib ne indices gf iz x y z w) := by
  rcases h with h | h
  · have hne : ¬ 0 < ne := by omega
    exact ⟨by simp [elementContrib, hne],
           fun gf2 => by simp [elementContrib, hne],
           fun _ ind2 => by simp [elementContrib, hne]⟩
  · by_cases hne : 0 < ne
    · have hidx : ¬ -1 < indices iz := by omega
      exact ⟨by simp [elementContrib, hne, hidx],
             fun gf2 => by simp [elementContrib, hne, hidx],
             fun hle => absurd hle (by omega)⟩
    · exact ⟨by simp [elementContrib, hne],
             fun gf2 => by simp [elementContrib, hne],
             fun _ ind2 => by simp [elementContrib, hne]⟩

/-- Witness for C10 at a concrete empty element type. -/
theorem element_lookup_guarded_witness :
    ((0:ℤ) ≤ 0 ∨ (fun _ : ℤ => (-1:ℤ)) 0 ≤ -1) ∧
    (elementContrib 0 (fun _ => -1) (fun _ _ _ _ _ => TransverseField.mk 1 2 3 4)
        0 0 0 0 0 = TransverseField.zero ∧
     (∀ gf2, elementContrib 0 (fun _ => -1) gf2 0 0 0 0 0 =
       elementContrib 0 (fun _ => -1) (fun _ _ _ _ _ => TransverseField.mk 1 2 3 4)
         0 0 0 0 0) ∧
     ((0:ℤ) ≤ 0 → ∀ ind2, elementContrib 0 ind2
         (fun _ _ _ _ _ => TransverseField.mk 1 2 3 4) 0 0 0 0 0 =
       elementContrib 0 (fun _ => -1) (fun _ _ _ _ _ => TransverseField.mk 1 2 3 4)
         0 0 0 0 0)) :=
  ⟨Or.inl (by norm_num),
   element_lookup_guarded 0 (fun _ => -1) (fun _ _ _ _ _ => TransverseField.mk 1 2 3 4)
     0 0 0 0 0 (Or.inl (by norm_num))⟩

/-- C6: for any `gamma_boost ≥ 1` with the matching boost momentum-per-mass
(`uz_boost² = (γ² − 1)·c²`, i.e. `uz_boost = γ·β·c`), the lab-to-boosted
field transform of the lattice gather composed with its inverse is the
identity on any transverse `(E, B)` pair, exactly over the reals. -/
theorem boost_round_trip (gb u : ℝ) (f : TransverseField) (hg : 1 ≤ gb)
    (hu : u ^ 2 = (gb ^ 2 - 1) * cLight ^ 2) :
    boostTransformInv gb u (boostTransform gb u f) = f ∧
    boostTransform gb u (boostTransformInv gb u f) = f := by
  have hc : (cLight : ℝ) ≠ 0 := by norm_num [cLight]
  have hkey : gb ^ 2 - u ^ 2 * inv_c2 = 1 := by
    rw [hu]
    unfold inv_c2
    field_simp
    ring
  obtain ⟨Ex, Ey, Bx, By⟩ := f
  unfold boostTransformInv boostTransform
  constructor
  · simp only [TransverseField.mk.injEq]
    refine ⟨?_, ?_, ?_, ?_⟩
    · linear_combination Ex * hkey
    · linear_combination Ey * hkey
    · linear_combination Bx * hkey
    · linear_combination By * hkey
  · simp only [TransverseField.mk.injEq]
    refine ⟨?_, ?_, ?_, ?_⟩
    · linear_combination Ex * hkey
    · linear_combination Ey * hkey
    · linear_combination Bx * hkey
    · linear_combination By * hkey

/-- Witness for C6 at `γ = 5/4`, `uz_boost = (3/4)·c` and a concrete field. -/
theorem boost_round_trip_witness :
    ((1:ℝ) ≤ 5 / 4 ∧ ((3 / 4) * cLight) ^ 2 = ((5 / 4:ℝ) ^ 2 - 1) * cLight ^ 2) ∧
    (boostTransformInv (5 / 4) ((3 / 4) * cLight)
        (boostTransform (5 / 4) ((3 / 4) * cLight) ⟨1, 2, 3, 4⟩) = ⟨1, 2, 3, 4⟩ ∧
     boostTransform (5 / 4) ((3 / 4) * cLight)
        (boostTransformInv (5 / 4) ((3 / 4) * cLight) ⟨1, 2, 3, 4⟩) = ⟨1, 2, 3, 4⟩) :=
  ⟨⟨by norm_num, by ring⟩,
   boost_round_trip (5 / 4) ((3 / 4) * cLight) ⟨1, 2, 3, 4⟩ (by norm_num) (by ring)⟩

/-- C7: the axial velocity the gather uses to extrapolate the particle
position satisfies the relativistic relation `v = p/(γ·m)` with
`γ = sqrt(1 + |p|²/(m·c)²)`, where `p = m·u` is the momentum for any
positive mass `m` and `u` the stored momentum-per-mass. -/
theorem gather_velocity_relativistic (m ux uy uz : ℝ) (hm : 0 < m) :
    vzpOf ux uy uz =
      (m * uz) /
        (Real.sqrt (1 + ((m * ux) ^ 2 + (m * uy) ^ 2 + (m * uz) ^ 2) / ((m * cLight) ^ 2))
          * m) := by
  have hc : (cLight : ℝ) ≠ 0 := by norm_num [cLight]
  have hm0 : m ≠ 0 := ne_of_gt hm
  have harg : 1 + ((m * ux) ^ 2 + (m * uy) ^ 2 + (m * uz) ^ 2) / ((m * cLight) ^ 2)
      = 1 + (ux * ux + uy * uy + uz * uz) * inv_c2 := by
    unfold inv_c2
    field_simp
    ring
  rw [harg]
  have hinv : 0 < inv_c2 := by norm_num [inv_c2, cLight]
  have hpos : 0 < Real.sqrt (1 + (ux * ux + uy * uy + uz * uz) * inv_c2) := by
    apply Real.sqrt_pos.mpr
    nlinarith [sq_nonneg ux, sq_nonneg uy, sq_nonneg uz]
  unfold vzpOf gammaOf
  rw [mul_comm m uz, mul_div_mul_right uz _ hm0]

/-- C2: for every cell, the field-gather buffer mask flags the cell iff its
distance in cells to the nearest coarse-fine interface cell is below the
gather threshold, the current-deposition mask flags it iff that distance is
below the deposit threshold, and each mask is independent of the other
mask's threshold. -/
theorem buffer_masks_iff (ifs : List Cell) (ng nd : ℤ) (c : Cell) (h : ifs ≠ []) :
    ((buildBuffers ifs ng nd).1 c = true ↔ nearestInterfaceDist ifs c < ng) ∧
    ((buildBuffers ifs ng nd).2 c = true ↔ nearestInterfaceDist ifs c < nd) ∧
    (∀ nd2, (buildBuffers ifs ng nd2).1 = (buildBuffers ifs ng nd).1) ∧
    (∀ ng2, (buildBuffers ifs ng2 nd).2 = (buildBuffers ifs ng nd).2) := by
  have hmap : ifs.map (fun b => cellDist c b) ≠ [] := by
    simpa using h
  have hmem : ∀ t : ℤ, (∃ a ∈ ifs.map (fun b => cellDist c b), a < t) ↔
      ∃ b ∈ ifs, cellDist c b < t := by
    intro t
    constructor
    · rintro ⟨a, ha, hlt⟩
      rcases List.mem_map.mp ha with ⟨b, hb, rfl⟩
      exact ⟨b, hb, hlt⟩
    · rintro ⟨b, hb, hlt⟩
      exact ⟨cellDist c b, List.mem_map.mpr ⟨b, hb, rfl⟩, hlt⟩
  have hdist : ∀ t : ℤ, nearestInterfaceDist ifs c < t ↔ ∃ b ∈ ifs, cellDist c b < t := by
    intro t
    unfold nearestInterfaceDist
    rw [listMin_lt_iff t _ hmap]
    exact hmem t
  refine ⟨?_, ?_, fun _ => rfl, fun _ => rfl⟩
  · rw [hdist ng]
    simp [buildBuffers, List.any_eq_true]
  · rw [hdist nd]
    simp [buildBuffers, List.any_eq_true]

/-- Witness for C2 with a single interface cell. -/
theorem buffer_masks_iff_witness :
    ([((0:ℤ), (0:ℤ), (0:ℤ))] : List Cell) ≠ [] ∧
    (((buildBuffers [((0:ℤ), (0:ℤ), (0:ℤ))] 1 2).1 (0, 0, 0) = true ↔
        nearestInterfaceDist [((0:ℤ), (0:ℤ), (0:ℤ))] (0, 0, 0) < 1) ∧
     ((buildBuffers [((0:ℤ), (0:ℤ), (0:ℤ))] 1 2).2 (0, 0, 0) = true ↔
        nearestInterfaceDist [((0:ℤ), (0:ℤ), (0:ℤ))] (0, 0, 0) < 2) ∧
     (∀ nd2, (buildBuffers [((0:ℤ), (0:ℤ), (0:ℤ))] 1 nd2).1 =
        (buildBuffers [((0:ℤ), (0:ℤ), (0:ℤ))] 1 2).1) ∧
     (∀ ng2, (buildBuffers [((0:ℤ), (0:ℤ), (0:ℤ))] ng2 2).2 =
        (buildBuffers [((0:ℤ), (0:ℤ), (0:ℤ))] 1 2).2)) :=
  ⟨by simp, buffer_masks_iff [((0:ℤ), (0:ℤ), (0:ℤ))] 1 2 (0, 0, 0) (by simp)⟩

/-- Witness for C7 at mass `2` and momentum-per-mass `(0, 0, 1)`. -/
theorem gather_velocity_relativistic_witness :
    (0:ℝ) < 2 ∧
    vzpOf 0 0 1 =
      ((2:ℝ) * 1) /
        (Real.sqrt (1 + (((2:ℝ) * 0) ^ 2 + ((2:ℝ) * 0) ^ 2 + ((2:ℝ) * 1) ^ 2)
            / (((2:ℝ) * cLight) ^ 2)) * 2) :=
  ⟨by norm_num, gather_velocity_relativistic 2 0 0 1 (by norm_num)⟩
